import Mathlib

/-!
Shallow embedding of the `apigen` package: a Go library that introspects
GORM model struct types and synthesizes CRUD routes, relationship routes
and Swagger schema documents.

Strings are modelled as `List Char` (Go iterates strings rune by rune).
The character-class helpers mirror `unicode.IsUpper` / `unicode.ToLower` /
`unicode.ToUpper` on the ASCII range, which is the range Go identifiers in
this repository use.
-/

set_option maxRecDepth 4000

namespace Apigen

abbrev Str := List Char

/-- ASCII fragment of Go's `unicode.IsUpper`. -/
def goIsUpper (c : Char) : Bool := 65 ≤ c.toNat && c.toNat ≤ 90

/-- ASCII fragment of Go's `unicode.ToLower`. -/
def goToLower (c : Char) : Char :=
  if goIsUpper c then Char.ofNat (c.toNat + 32) else c

/-- ASCII fragment of Go's `unicode.ToUpper`. -/
def goToUpper (c : Char) : Char :=
  if 97 ≤ c.toNat && c.toNat ≤ 122 then Char.ofNat (c.toNat - 32) else c

/-- Source `strings.HasSuffix`. -/
def hasSuffix (s suffix : Str) : Bool := List.isSuffixOf suffix s

/-- Source `strings.TrimSuffix`. -/
def trimSuffix (s suffix : Str) : Str :=
  if hasSuffix s suffix then s.take (s.length - suffix.length) else s

/-- Source `strings.Contains`: `sub` occurs contiguously inside `s`. -/
def strContains : (s sub : Str) → Bool
  | s, sub =>
    List.isPrefixOf sub s ||
      match s with
      | [] => false
      | _ :: rest => strContains rest sub

/-- Source `strings.Split(tag, ",")[0]`: the characters before the first comma. -/
def jsonNameOf (tag : Str) : Str := tag.takeWhile (fun c => c ≠ ',')

/--
Source `toSnakeCase` (src/unnamed/part_003): walks the runes of `s`; an uppercase
rune that is not the first rune is preceded by `'_'` and lower-cased.
`first` tracks whether we are at the first rune (Go tests `i > 0`).
-/
def snakeAux (first : Bool) : Str → Str
  | [] => []
  | c :: rest =>
    if goIsUpper c then
      (if first then [goToLower c] else ['_', goToLower c]) ++ snakeAux false rest
    else
      c :: snakeAux false rest

def toSnakeCase (s : Str) : Str := snakeAux true s

/--
Source `toCamelCase` (src/unnamed/part_003): drops `'_'` and upper-cases the rune
following each `'_'`; `nextUpper` is the carried flag.
-/
def camelAux (nextUpper : Bool) : Str → Str
  | [] => []
  | c :: rest =>
    if c = '_' then camelAux true rest
    else if nextUpper then goToUpper c :: camelAux false rest
    else c :: camelAux false rest

def toCamelCase (s : Str) : Str := camelAux false s

/-- Source `pluralize` (src/unnamed/part_003): simple suffix rule table. -/
def pluralize (s : Str) : Str :=
  if hasSuffix s ("y".toList) then
    trimSuffix s ("y".toList) ++ "ies".toList
  else if hasSuffix s ("s".toList) || hasSuffix s ("x".toList) ||
          hasSuffix s ("z".toList) || hasSuffix s ("ch".toList) ||
          hasSuffix s ("sh".toList) then
    s ++ "es".toList
  else
    s ++ "s".toList

/--
Modelled from the spec (§4.1): the pluralization rule table as the spec
words it — word ending in "y" → drop "y", append "ies"; word ending in
"s"/"x"/"z"/"ch"/"sh" → append "es"; otherwise append "s"; applied in this
precedence. Used to compare the spec's table against the source `pluralize`.
-/
def pluralizeSpecTable (s : Str) : Str :=
  if hasSuffix s ("y".toList) then s.dropLast ++ "ies".toList
  else if hasSuffix s ("s".toList) || hasSuffix s ("x".toList) ||
          hasSuffix s ("z".toList) || hasSuffix s ("ch".toList) ||
          hasSuffix s ("sh".toList) then s ++ "es".toList
  else s ++ "s".toList

end Apigen

namespace Apigen

/--
The fragment of `reflect.Type` the package inspects: kinds, the struct
field list (name, json tag, type) and `time.Time` as a distinguished
struct (`t.String() == "time.Time"`, `t.Name() == "Time"`).
Go struct types can be cyclic; a nested occurrence of a registered struct
is represented by its name with the field list elided where the code never
reads it (the registry lookup is by name).
-/
inductive GoType where
  | bool
  | int
  | int8
  | int16
  | int32
  | int64
  | uint
  | uint8
  | uint16
  | uint32
  | uint64
  | float32
  | float64
  | str
  | timeTime
  | strukt (name : Str) (fields : List (Str × Str × GoType))
  | slice (elem : GoType)
  | tmap (key elem : GoType)
  | ptr (elem : GoType)

/-- Source `t.Kind() == reflect.Struct` (true for named structs and `time.Time`). -/
def GoType.kindIsStruct : GoType → Bool
  | .strukt _ _ => true
  | .timeTime => true
  | _ => false

/-- Source `t.Kind() == reflect.Uint` (exactly the word-sized unsigned kind). -/
def GoType.kindIsUint : GoType → Bool
  | .uint => true
  | _ => false

/-- Source `t.Kind() == reflect.String`. -/
def GoType.kindIsString : GoType → Bool
  | .str => true
  | _ => false

/-- Source `t.Name()` for the kinds the package reads it on. -/
def GoType.typeName : GoType → Str
  | .strukt n _ => n
  | .timeTime => "Time".toList
  | _ => []

/-- Source `isBasicType` (src/unnamed/part_003): `time.Time` plus the scalar kinds. -/
def isBasicType : GoType → Bool
  | .timeTime => true
  | .bool => true
  | .int => true
  | .int8 => true
  | .int16 => true
  | .int32 => true
  | .int64 => true
  | .uint => true
  | .uint8 => true
  | .uint16 => true
  | .uint32 => true
  | .uint64 => true
  | .float32 => true
  | .float64 => true
  | .str => true
  | _ => false

/-- One pointer dereference, as `RegisterModel` performs on entry. -/
def derefPtr : GoType → GoType
  | .ptr t => t
  | t => t

/-- Source `FieldInfo` (src/unnamed/part_003). -/
structure FieldInfo where
  name : Str
  jsonName : Str
  ty : GoType
  isID : Bool
  omitEmpty : Bool

/-- Source `ForeignKeyInfo` (src/unnamed/part_003). Unset strings are `[]` (Go `""`). -/
structure ForeignKeyInfo where
  fieldName : Str
  relatedModel : Str
  relatedField : Str
  relationshipID : Str
deriving DecidableEq

/-- Source `ModelInfo` (src/unnamed/part_003). `ty` plays the role of `Type reflect.Type`. -/
structure ModelInfo where
  ty : GoType
  fields : List FieldInfo
  foreignKeys : List ForeignKeyInfo
  resourceName : Str
  pluralName : Str

/-- Source `modelInfo.Type.Name()`. -/
def ModelInfo.typeName (mi : ModelInfo) : Str := mi.ty.typeName

/--
The field-processing loop shared by `RegisterModel` and `AnalyzeModel`
(src/unnamed/part_003): fields whose json tag is `""` or `"-"` are skipped;
each kept field yields a `FieldInfo`; Rule A (nested non-basic struct) and
Rule B (name ends in "ID", kind `uint`) each append a `ForeignKeyInfo`.
-/
def processFields : List (Str × Str × GoType) → List FieldInfo × List ForeignKeyInfo
  | [] => ([], [])
  | (name, jsonTag, ty) :: rest =>
    let pf := processFields rest
    if jsonTag = [] || jsonTag = "-".toList then pf
    else
      let fieldInfo : FieldInfo :=
        { name := name
          jsonName := jsonNameOf jsonTag
          ty := ty
          isID := name = "ID".toList || hasSuffix name ("ID".toList)
          omitEmpty := strContains jsonTag ("omitempty".toList) }
      let fkA : List ForeignKeyInfo :=
        if ty.kindIsStruct && !isBasicType ty then
          [{ fieldName := name
             relatedModel := ty.typeName
             relatedField := "ID".toList
             relationshipID := [] }]
        else []
      let fkB : List ForeignKeyInfo :=
        if hasSuffix name ("ID".toList) && ty.kindIsUint then
          [{ fieldName := name
             relatedModel := trimSuffix name ("ID".toList)
             relatedField := []
             relationshipID := name }]
        else []
      (fieldInfo :: pf.1, fkA ++ fkB ++ pf.2)

/--
The `ModelInfo`-building part of `RegisterModel` (src/unnamed/part_003
lines 261-331): dereference a pointer, fail on non-structs, derive
`resourceName` via `toSnakeCase` when the caller passes `""`, derive
`pluralName` via `pluralize`, process the fields. Returns `none` where the
Go code returns the "model must be a struct" error.
-/
def registerModelInfo (model : GoType) (resourceName : Str) : Option ModelInfo :=
  match derefPtr model with
  | .strukt name fields =>
    let rn := if resourceName = [] then toSnakeCase name else resourceName
    some { ty := .strukt name fields
           fields := (processFields fields).1
           foreignKeys := (processFields fields).2
           resourceName := rn
           pluralName := pluralize rn }
  | .timeTime =>
    let rn := if resourceName = [] then toSnakeCase ("Time".toList) else resourceName
    some { ty := .timeTime
           fields := []
           foreignKeys := []
           resourceName := rn
           pluralName := pluralize rn }
  | _ => none

/-- Lookup in a Go `map[string]V`, modelled as an association list. -/
def mapLookup {α : Type} : List (Str × α) → Str → Option α
  | [], _ => none
  | (k', v) :: rest, k => if k' = k then some v else mapLookup rest k

/-- Assignment `m[k] = v` in a Go `map[string]V`. -/
def mapInsert {α : Type} : List (Str × α) → Str → α → List (Str × α)
  | [], k, v => [(k, v)]
  | (k', v') :: rest, k, v =>
    if k' = k then (k, v) :: rest else (k', v') :: mapInsert rest k v

/--
Identity of a route handler closure: which handler constructor
(src/unnamed/part_002) it is, for which model (by type name), and — for
`relatedHandler` — which `ForeignKeyInfo` it closes over.
-/
inductive Handler where
  | list (model : Str)
  | getByID (model : Str)
  | create (model : Str)
  | update (model : Str)
  | delete (model : Str)
  | related (model : Str) (fk : ForeignKeyInfo)
deriving DecidableEq

/-- One binding recorded against the gin router (`g.Router.GET` etc.). -/
structure Route where
  method : Str
  path : Str
  handler : Handler
deriving DecidableEq

/--
Source `APIGenerator` (src/unnamed/part_003). `DB` and `Router` are external
collaborators; the router is modelled as the ordered list of bindings the
generator has sent to it. `registeredPaths` models the
`map[string]bool` set of already-bound relationship paths.
-/
structure APIGenerator where
  models : List (Str × ModelInfo)
  registeredPaths : List Str
  routes : List Route

/-- Source `New` (src/unnamed/part_003): empty registry, empty path set. -/
def newGenerator : APIGenerator :=
  { models := [], registeredPaths := [], routes := [] }

/--
Source `RegisterModel` (src/unnamed/part_003): on success the `ModelInfo` is
stored in `g.Models` under `modelType.Name()` — the type's raw declared
name. A non-struct input returns the error and leaves `g` unchanged.
-/
def registerModel (g : APIGenerator) (model : GoType) (resourceName : Str) :
    APIGenerator :=
  match registerModelInfo model resourceName with
  | none => g
  | some mi => { g with models := mapInsert g.models mi.typeName mi }

/-- The five CRUD bindings `generateModelAPI` sends to the router, in order. -/
def crudRoutes (mi : ModelInfo) : List Route :=
  let basePath := "/api/".toList ++ mi.pluralName
  [ { method := "GET".toList, path := basePath, handler := .list mi.typeName }
  , { method := "GET".toList, path := basePath ++ "/:id".toList,
      handler := .getByID mi.typeName }
  , { method := "POST".toList, path := basePath, handler := .create mi.typeName }
  , { method := "PUT".toList, path := basePath ++ "/:id".toList,
      handler := .update mi.typeName }
  , { method := "DELETE".toList, path := basePath ++ "/:id".toList,
      handler := .delete mi.typeName } ]

/-- The relationship path `basePath + "/:id/" + toSnakeCase(fk.RelatedModel)`. -/
def relatedPathOf (basePath : Str) (fk : ForeignKeyInfo) : Str :=
  basePath ++ "/:id/".toList ++ toSnakeCase fk.relatedModel

/--
The foreign-key loop of `generateModelAPI` (src/unnamed/part_003 lines
352-362): for each `ForeignKeyInfo` with a nonempty `RelatedModel`, bind
`GET` on the relationship path unless that path is already in
`RegisteredPaths`; a freshly bound path is added to `RegisteredPaths`.
-/
def bindRelated (mi : ModelInfo) (basePath : Str) :
    List Route → List Str → List ForeignKeyInfo → List Route × List Str
  | routes, paths, [] => (routes, paths)
  | routes, paths, fk :: rest =>
    if fk.relatedModel ≠ [] then
      let rp := relatedPathOf basePath fk
      if rp ∈ paths then bindRelated mi basePath routes paths rest
      else
        bindRelated mi basePath
          (routes ++ [{ method := "GET".toList, path := rp,
                        handler := .related mi.typeName fk }])
          (paths ++ [rp]) rest
    else bindRelated mi basePath routes paths rest

/--
Source `generateModelAPI` (src/unnamed/part_003 lines 341-363): bind the five
CRUD routes unconditionally, then run the relationship loop.
-/
def generateModelAPI (g : APIGenerator) (mi : ModelInfo) : APIGenerator :=
  let basePath := "/api/".toList ++ mi.pluralName
  let rp := bindRelated mi basePath (g.routes ++ crudRoutes mi)
              g.registeredPaths mi.foreignKeys
  { g with routes := rp.1, registeredPaths := rp.2 }

/--
Source `GenerateAPI` (src/unnamed/part_003): run `generateModelAPI` for every
registered model. Go iterates the `Models` map in unspecified order; the
registry's insertion order stands in for it here, and the claims proven
below do not depend on the iteration order.
-/
def generateAPI (g : APIGenerator) : APIGenerator :=
  (g.models.map Prod.snd).foldl generateModelAPI g

/--
The filter column `relatedHandler` (src/unnamed/part_002 lines 557-570)
queries the related collection with: the explicit `fk.RelationshipID`
column when present, else the conventional `ResourceName + "ID"` column of
the parent model (the format string `"%sID = ?"`).
-/
def relatedFilterColumn (parent : ModelInfo) (fk : ForeignKeyInfo) : Str :=
  if fk.relationshipID ≠ [] then fk.relationshipID
  else parent.resourceName ++ "ID".toList

/-! ### The update handler (src/unnamed/part_002 lines 415-463)

The database and the JSON binder are external collaborators; each request
is modelled by the outcomes those collaborators would produce, and the
handler's own behaviour — which collaborator calls it makes, in which
order, and which HTTP status it responds with — is computed from them. -/

/-- Outcome of `g.DB...First(...)` for the requested identifier. -/
inductive FirstOutcome where
  | found
  | recordNotFound
  | otherError
deriving DecidableEq

/-- Outcome of `c.ShouldBindJSON(instance)`. -/
inductive BindOutcome where
  | bound
  | bindError
deriving DecidableEq

/-- Outcome of `g.DB.Save(instance)`. -/
inductive SaveOutcome where
  | saved
  | saveError
deriving DecidableEq

/-- A collaborator call made by the update handler, in request order. -/
inductive HandlerCall where
  | dbFirstWhere (id : Str)
  | dbFirst (id : Str)
  | bindJSON
  | dbSave
deriving DecidableEq

/-- Status code plus the ordered collaborator calls of one request. -/
structure HandlerResult where
  status : Nat
  calls : List HandlerCall
deriving DecidableEq

/-- Source `modelInfo.Type.FieldByName("ID")`: the type of the first field
named `ID`, or `none` when the struct has no such field — in Go the
returned zero `StructField` then carries a nil `reflect.Type`. -/
def fieldTypeByName (ty : GoType) (fname : Str) : Option GoType :=
  match ty with
  | .strukt _ fields =>
    (fields.find? (fun f => f.1 = fname)).map (fun f => f.2.2)
  | _ => none

/--
Source `updateHandler` (src/unnamed/part_002 lines 415-463): empty id → 400;
then `idField, _ := modelInfo.Type.FieldByName("ID")` followed by
`idField.Type.Kind()` — when the struct has no `ID` field this
dereferences the zero `StructField`'s nil `reflect.Type` and panics, which
is modelled as `none`; then the existence check (`Where("id = ?").First`
for a string ID field, `First(instance, id)` otherwise) —
`ErrRecordNotFound` → 404, other failure → 500; then `ShouldBindJSON` —
failure → 400; then `Save` — failure → 500; success → 200 with the
updated instance.
-/
def updateHandler (mi : ModelInfo) (id : Str) (firstRes : FirstOutcome)
    (bindRes : BindOutcome) (saveRes : SaveOutcome) : Option HandlerResult :=
  if id = [] then some { status := 400, calls := [] }
  else
    match fieldTypeByName mi.ty ("ID".toList) with
    | none => none
    | some idTy =>
      let firstCall :=
        if idTy.kindIsString then HandlerCall.dbFirstWhere id
        else HandlerCall.dbFirst id
      match firstRes with
      | .recordNotFound => some { status := 404, calls := [firstCall] }
      | .otherError => some { status := 500, calls := [firstCall] }
      | .found =>
        match bindRes with
        | .bindError => some { status := 400, calls := [firstCall, .bindJSON] }
        | .bound =>
          match saveRes with
          | .saveError =>
            some { status := 500, calls := [firstCall, .bindJSON, .dbSave] }
          | .saved =>
            some { status := 200, calls := [firstCall, .bindJSON, .dbSave] }

/-! ### The Swagger generator (src/unnamed/part_005) -/

/-- The structural shape of the documents `getSwaggerType` returns. -/
inductive Sw where
  | booleanType
  | integerType (format : Str)
  | numberType (format : Str)
  | stringType
  | dateTimeType
  | refType (name : Str)
  | objectType (properties : List (Str × Sw))
  | arrayType (items : Sw)
  | additionalPropsType (ap : Sw)

/-- Source `getIntegerFormat` (src/unnamed/part_005). -/
def getIntegerFormat : GoType → Str
  | .int64 => "int64".toList
  | .uint64 => "int64".toList
  | _ => "int32".toList

/-- Source `getFloatFormat` (src/unnamed/part_005). -/
def getFloatFormat : GoType → Str
  | .float64 => "double".toList
  | _ => "float".toList

mutual

/--
Source `getSwaggerType` (src/unnamed/part_005): kind-directed mapping of a Go
type to a Swagger schema. A struct kind first consults the model registry
(by `t.Name()`; `time.Time` has name `"Time"`), then the `time.Time`
special case, then builds an inline object from the struct's own
json-tagged fields; pointers are unwrapped; the default case is `string`.
-/
def getSwaggerType (models : List (Str × ModelInfo)) : GoType → Sw
  | .bool => .booleanType
  | .int => .integerType (getIntegerFormat .int)
  | .int8 => .integerType (getIntegerFormat .int8)
  | .int16 => .integerType (getIntegerFormat .int16)
  | .int32 => .integerType (getIntegerFormat .int32)
  | .int64 => .integerType (getIntegerFormat .int64)
  | .uint => .integerType (getIntegerFormat .uint)
  | .uint8 => .integerType (getIntegerFormat .uint8)
  | .uint16 => .integerType (getIntegerFormat .uint16)
  | .uint32 => .integerType (getIntegerFormat .uint32)
  | .uint64 => .integerType (getIntegerFormat .uint64)
  | .float32 => .numberType (getFloatFormat .float32)
  | .float64 => .numberType (getFloatFormat .float64)
  | .str => .stringType
  | .timeTime =>
    match mapLookup models ("Time".toList) with
    | some mi => .refType mi.typeName
    | none => .dateTimeType
  | .strukt name fields =>
    match mapLookup models name with
    | some mi => .refType mi.typeName
    | none => .objectType (inlineStructProps models fields)
  | .slice elem => .arrayType (getSwaggerType models elem)
  | .tmap _ elem => .additionalPropsType (getSwaggerType models elem)
  | .ptr elem => getSwaggerType models elem

/--
The inline-object loop of `getSwaggerType`'s struct default case: one
property per json-tagged field (tags `""` and `"-"` skipped), keyed by the
first component of the tag.
-/
def inlineStructProps (models : List (Str × ModelInfo)) :
    List (Str × Str × GoType) → List (Str × Sw)
  | [] => []
  | (_, jsonTag, ty) :: rest =>
    if jsonTag = [] || jsonTag = "-".toList then inlineStructProps models rest
    else (jsonNameOf jsonTag, getSwaggerType models ty) :: inlineStructProps models rest

end

/--
The `{"type": "object", "properties": ..., "required": ...}` documents
`GenerateRequestBody` / `GenerateResponseBody` build. `required` is the
(possibly empty) list the Go code accumulates; the Go code attaches it to
the document only when nonempty.
-/
structure SwaggerBody where
  properties : List (Str × Sw)
  required : List Str

/--
Source `GenerateRequestBody` (src/unnamed/part_005 lines 178-207): one property
per field, skipping fields whose `JSONName` is `"-"` and — when `isCreate`
— every field whose `IsID` flag is set; fields not marked `omitempty` are
accumulated as required.
-/
def generateRequestBody (models : List (Str × ModelInfo)) (mi : ModelInfo)
    (isCreate : Bool) : SwaggerBody :=
  let kept := mi.fields.filter
    (fun f => !(f.jsonName = "-".toList || (isCreate && f.isID)))
  { properties := kept.map (fun f => (f.jsonName, getSwaggerType models f.ty))
    required := (kept.filter (fun f => !f.omitEmpty)).map (fun f => f.jsonName) }

/--
Source `GenerateResponseBody` (src/unnamed/part_005 lines 210-227): one property
per field, skipping only fields whose `JSONName` is `"-"`; no required list.
-/
def generateResponseBody (models : List (Str × ModelInfo)) (mi : ModelInfo) :
    SwaggerBody :=
  let kept := mi.fields.filter (fun f => !(f.jsonName = "-".toList))
  { properties := kept.map (fun f => (f.jsonName, getSwaggerType models f.ty))
    required := [] }

/-- The property keys of a generated body document. -/
def SwaggerBody.keys (b : SwaggerBody) : List Str := b.properties.map Prod.fst

/-! ### The generated Go request structs (src/unnamed/part_003 lines 86-109) -/

/-- Source `getTypeName` (src/unnamed/part_003): Go syntax for a field type. -/
def getTypeName : GoType → Str
  | .bool => "bool".toList
  | .int => "int".toList
  | .int8 => "int8".toList
  | .int16 => "int16".toList
  | .int32 => "int32".toList
  | .int64 => "int64".toList
  | .uint => "uint".toList
  | .uint8 => "uint8".toList
  | .uint16 => "uint16".toList
  | .uint32 => "uint32".toList
  | .uint64 => "uint64".toList
  | .float32 => "float32".toList
  | .float64 => "float64".toList
  | .str => "string".toList
  | .timeTime => "time.Time".toList
  | .strukt name _ => name
  | .slice elem => "[]".toList ++ getTypeName elem
  | .tmap key elem =>
    "map[".toList ++ getTypeName key ++ "]".toList ++ getTypeName elem
  | .ptr elem => "*".toList ++ getTypeName elem

/--
The fields `GenerateRequestStruct` (src/unnamed/part_003 lines 86-109)
keeps: its loop skips a field exactly when
`isCreate && field.IsID && field.Name == "ID"`.
-/
def requestStructFields (mi : ModelInfo) (isCreate : Bool) : List FieldInfo :=
  mi.fields.filter
    (fun f => !(isCreate && f.isID && f.name = "ID".toList))

/-- The struct-body line `GenerateRequestStruct` renders for one kept field. -/
def requestStructLine (f : FieldInfo) : Str :=
  "\t".toList ++ f.name ++ " ".toList ++ getTypeName f.ty ++
    " `json:\"".toList ++ f.jsonName ++ "\"`\n".toList

/--
Source `GenerateRequestStruct` (src/unnamed/part_003 lines 86-109): the rendered
Go source of the generated request struct — the header naming the struct
`<Type><Create|Update>Request`, one line per kept field, the closing brace.
-/
def generateRequestStruct (mi : ModelInfo) (isCreate : Bool) : Str :=
  let opName := if isCreate then "Create".toList else "Update".toList
  "type ".toList ++ mi.typeName ++ opName ++ "Request struct \x7b\n".toList ++
    ((requestStructFields mi isCreate).map requestStructLine).flatten ++
    "\x7d\n".toList

/-! ### Concrete models

The `User`/`Post` pair the spec's testable properties and the README use:
`User{ID uint, Name string, Email string, Posts []Post}` and
`Post{ID uint, UserID uint, Title string, User User}`, with the json tags
of the repository's example file. Go struct types are cyclic
(`User.Posts : []Post`, `Post.User : User`); a nested occurrence is
represented by its type name with the field list elided, which is all the
analyzed code reads of a nested occurrence (Rule A and the Swagger
generator look it up in the registry by name).
-/

def postStructFields : List (Str × Str × GoType) :=
  [ ("ID".toList, "id".toList, .uint)
  , ("UserID".toList, "user_id".toList, .uint)
  , ("Title".toList, "title".toList, .str)
  , ("User".toList, "user,omitempty".toList, .strukt ("User".toList) []) ]

def postGoType : GoType := .strukt ("Post".toList) postStructFields

def userStructFields : List (Str × Str × GoType) :=
  [ ("ID".toList, "id".toList, .uint)
  , ("Name".toList, "name".toList, .str)
  , ("Email".toList, "email".toList, .str)
  , ("Posts".toList, "posts,omitempty".toList, .slice (.strukt ("Post".toList) [])) ]

def userGoType : GoType := .strukt ("User".toList) userStructFields

/-- The generator after registering `User` and `Post` and running `GenerateAPI`. -/
def genUserPost : APIGenerator :=
  generateAPI (registerModel (registerModel newGenerator userGoType []) postGoType [])

/-- A string with its first character lower-cased. -/
def lowerFirst : Str → Str
  | [] => []
  | c :: rest => goToLower c :: rest

/-- Whether a handler is the relationship handler. -/
def Handler.isRelated : Handler → Bool
  | .related _ _ => true
  | _ => false

def fallbackModelInfo : ModelInfo :=
  { ty := .bool, fields := [], foreignKeys := [], resourceName := [],
    pluralName := [] }

/-- The analyzed `ModelInfo` of `userGoType` (resource name defaulted). -/
def miUser : ModelInfo := (registerModelInfo userGoType []).getD fallbackModelInfo

/-- The analyzed `ModelInfo` of `postGoType` (resource name defaulted). -/
def miPost : ModelInfo := (registerModelInfo postGoType []).getD fallbackModelInfo

/-- The Rule-B foreign key of `Post` (from the scalar `UserID uint` field). -/
def fkPostUserID : ForeignKeyInfo :=
  { fieldName := "UserID".toList, relatedModel := "User".toList,
    relatedField := [], relationshipID := "UserID".toList }

/-- The Rule-A foreign key of `Post` (from the nested `User User` field). -/
def fkPostUser : ForeignKeyInfo :=
  { fieldName := "User".toList, relatedModel := "User".toList,
    relatedField := "ID".toList, relationshipID := [] }

def postsUserPath : Str := "/api/posts/:id/user".toList

def usersPostPath : Str := "/api/users/:id/post".toList

/-- Predicate `resolvesViaConventionalUserID parent h` holds when `h` is a
relationship handler with no explicit relationship column whose fallback
filter column (per `relatedHandler`) would be `userID`. -/
def resolvesViaConventionalUserID (parent : ModelInfo) : Handler → Bool
  | .related _ fk =>
    fk.relationshipID = [] &&
      relatedFilterColumn parent fk = "userID".toList
  | _ => false

/-- The analyzed `FieldInfo` of `User.ID` (json tag `"id"`, kind `uint`). -/
def userIDFieldInfo : FieldInfo :=
  { name := "ID".toList, jsonName := "id".toList, ty := .uint,
    isID := true, omitEmpty := false }

/-- The analyzed `FieldInfo` of `Post.UserID` (json tag `"user_id"`, kind `uint`). -/
def postUserIDFieldInfo : FieldInfo :=
  { name := "UserID".toList, jsonName := "user_id".toList, ty := .uint,
    isID := true, omitEmpty := false }

/-! ### Facts about the naming engine -/

theorem char_toNat_ofNat (n : Nat) (h : n < 55296) : (Char.ofNat n).toNat = n := by
  simp only [Char.ofNat, Nat.isValidChar]
  rw [dif_pos (Or.inl h)]
  simp [Char.ofNatAux, Char.toNat, UInt32.toNat, UInt32.ofNatCore]

theorem char_eq_of_toNat_eq {c d : Char} (h : c.toNat = d.toNat) : c = d := by
  rw [← Char.ofNat_toNat c, ← Char.ofNat_toNat d, h]

theorem goIsUpper_bounds {c : Char} (h : goIsUpper c = true) :
    65 ≤ c.toNat ∧ c.toNat ≤ 90 := by
  simpa [goIsUpper] using h

theorem toNat_goToLower {c : Char} (h : goIsUpper c = true) :
    (goToLower c).toNat = c.toNat + 32 := by
  obtain ⟨h1, h2⟩ := goIsUpper_bounds h
  rw [goToLower, if_pos h]
  exact char_toNat_ofNat _ (by omega)

theorem goIsUpper_goToLower (c : Char) : goIsUpper (goToLower c) = false := by
  by_cases h : goIsUpper c = true
  · obtain ⟨h1, h2⟩ := goIsUpper_bounds h
    have h3 := toNat_goToLower h
    simp only [goIsUpper, h3, Bool.and_eq_false_iff, decide_eq_false_iff_not]
    omega
  · rw [goToLower, if_neg h]
    simpa using h

theorem goToLower_eq_self {c : Char} (h : goIsUpper c = false) : goToLower c = c := by
  rw [goToLower, if_neg (by simp [h])]

theorem goToLower_ne_underscore {c : Char} (h : goIsUpper c = true) :
    goToLower c ≠ '_' := by
  intro heq
  have h1 := toNat_goToLower h
  obtain ⟨h2, h3⟩ := goIsUpper_bounds h
  rw [heq] at h1
  rw [show Char.toNat '_' = 95 from rfl] at h1
  omega

theorem goToUpper_goToLower {c : Char} (h : goIsUpper c = true) :
    goToUpper (goToLower c) = c := by
  obtain ⟨h1, h2⟩ := goIsUpper_bounds h
  have h3 := toNat_goToLower h
  rw [goToUpper, if_pos (by rw [h3]; simp; omega)]
  apply char_eq_of_toNat_eq
  rw [h3]
  rw [char_toNat_ofNat _ (by omega)]
  omega

theorem goIsUpper_underscore : goIsUpper '_' = false := by decide

/-- Every character `toSnakeCase` emits fails the uppercase test. -/
theorem snakeAux_no_upper (s : Str) :
    ∀ b, ∀ c ∈ snakeAux b s, goIsUpper c = false := by
  induction s with
  | nil => intro b c hc; simp [snakeAux] at hc
  | cons a rest ih =>
    intro b c hc
    rw [snakeAux] at hc
    by_cases ha : goIsUpper a = true
    · rw [if_pos ha] at hc
      rcases List.mem_append.mp hc with hmem | hmem
      · by_cases hb : b
        · subst hb
          simp only [if_pos] at hmem
          simp only [List.mem_singleton] at hmem
          subst hmem; exact goIsUpper_goToLower a
        · simp only [Bool.not_eq_true] at hb
          subst hb
          simp only [Bool.false_eq_true, if_false, List.mem_cons,
            List.mem_singleton, List.not_mem_nil, or_false] at hmem
          rcases hmem with hmem | hmem
          · subst hmem; exact goIsUpper_underscore
          · subst hmem; exact goIsUpper_goToLower a
      · exact ih false c hmem
    · rw [if_neg ha] at hc
      rcases List.mem_cons.mp hc with hmem | hmem
      · subst hmem; simpa using ha
      · exact ih false c hmem

/-- Source `toSnakeCase` is the identity on a string with no uppercase character. -/
theorem snakeAux_id_of_no_upper (s : Str) (h : ∀ c ∈ s, goIsUpper c = false) :
    ∀ b, snakeAux b s = s := by
  induction s with
  | nil => intro b; rfl
  | cons a rest ih =>
    intro b
    rw [snakeAux, if_neg (by simp [h a (List.mem_cons_self a rest)])]
    rw [ih (fun c hc => h c (List.mem_cons_of_mem a hc)) false]

/-- Undoing `snakeAux false` on an underscore-free string. -/
theorem camelAux_snakeAux_false (s : Str) (h : '_' ∉ s) :
    camelAux false (snakeAux false s) = s := by
  induction s with
  | nil => rfl
  | cons a rest ih =>
    have ha : a ≠ '_' := fun heq => h (heq ▸ List.mem_cons_self a rest)
    have hrest : '_' ∉ rest := fun hmem => h (List.mem_cons_of_mem a hmem)
    by_cases hu : goIsUpper a = true
    · rw [snakeAux, if_pos hu]
      simp only [Bool.false_eq_true, if_false, List.cons_append,
        List.singleton_append, List.nil_append]
      rw [camelAux, if_pos rfl]
      rw [camelAux, if_neg (goToLower_ne_underscore hu), if_pos rfl]
      rw [goToUpper_goToLower hu, ih hrest]
    · rw [snakeAux, if_neg hu]
      rw [camelAux, if_neg ha]
      simp only [Bool.false_eq_true, if_false]
      rw [ih hrest]

/--
On an underscore-free identifier, `toCamelCase` after `toSnakeCase`
restores everything except the case of the first character, which comes
back lower-case.
-/
theorem toCamelCase_toSnakeCase (s : Str) (h : '_' ∉ s) :
    toCamelCase (toSnakeCase s) = lowerFirst s := by
  cases s with
  | nil => rfl
  | cons a rest =>
    have ha : a ≠ '_' := fun heq => h (heq ▸ List.mem_cons_self a rest)
    have hrest : '_' ∉ rest := fun hmem => h (List.mem_cons_of_mem a hmem)
    rw [toCamelCase, toSnakeCase, snakeAux]
    by_cases hu : goIsUpper a = true
    · rw [if_pos hu]
      simp only [if_pos, List.singleton_append]
      rw [camelAux, if_neg (goToLower_ne_underscore hu)]
      simp only [Bool.false_eq_true, if_false]
      rw [camelAux_snakeAux_false rest hrest, lowerFirst]
    · rw [if_neg hu]
      rw [camelAux, if_neg ha]
      simp only [Bool.false_eq_true, if_false]
      rw [camelAux_snakeAux_false rest hrest, lowerFirst,
        goToLower_eq_self (by simpa using hu)]

/-! ### Facts about the registry -/

theorem mapLookup_mapInsert_self {α : Type} (m : List (Str × α)) (k : Str) (v : α) :
    mapLookup (mapInsert m k v) k = some v := by
  induction m with
  | nil => simp [mapInsert, mapLookup]
  | cons e rest ih =>
    rw [mapInsert]
    by_cases h : e.1 = k
    · rw [if_pos h, mapLookup, if_pos rfl]
    · rw [if_neg h, mapLookup, if_neg h, ih]

theorem mapLookup_mapInsert_other {α : Type} (m : List (Str × α)) (k : Str) (v : α)
    (k' : Str) (h : k' ≠ k) :
    mapLookup (mapInsert m k v) k' = mapLookup m k' := by
  induction m with
  | nil =>
    simp only [mapInsert, mapLookup]
    rw [if_neg (fun heq : k = k' => h heq.symm)]
  | cons e rest ih =>
    rw [mapInsert]
    by_cases he : e.1 = k
    · rw [if_pos he, mapLookup, if_neg (fun heq : k = k' => h heq.symm), mapLookup,
        if_neg (fun heq : e.1 = k' => h (he ▸ heq).symm)]
    · rw [if_neg he, mapLookup, mapLookup]
      by_cases he' : e.1 = k'
      · rw [if_pos he', if_pos he']
      · rw [if_neg he', if_neg he', ih]

/-! ### Facts about the relationship-route loop -/

theorem bindRelated_snd_mono (mi : ModelInfo) (bp : Str)
    (fks : List ForeignKeyInfo) :
    ∀ routes paths p, p ∈ paths → p ∈ (bindRelated mi bp routes paths fks).2 := by
  induction fks with
  | nil => intro routes paths p hp; exact hp
  | cons fk rest ih =>
    intro routes paths p hp
    rw [bindRelated]
    by_cases h1 : fk.relatedModel ≠ []
    · rw [if_pos h1]
      by_cases h2 : relatedPathOf bp fk ∈ paths
      · rw [if_pos h2]; exact ih _ _ _ hp
      · rw [if_neg h2]; exact ih _ _ _ (List.mem_append_left _ hp)
    · rw [if_neg h1]; exact ih _ _ _ hp

theorem bindRelated_snd_complete (mi : ModelInfo) (bp : Str)
    (fks : List ForeignKeyInfo) :
    ∀ routes paths fk, fk ∈ fks → fk.relatedModel ≠ [] →
      relatedPathOf bp fk ∈ (bindRelated mi bp routes paths fks).2 := by
  induction fks with
  | nil => intro _ _ _ hmem; exact absurd hmem (List.not_mem_nil _)
  | cons fk0 rest ih =>
    intro routes paths fk hmem hne
    rw [bindRelated]
    rcases List.mem_cons.mp hmem with rfl | hmem
    · rw [if_pos hne]
      by_cases h2 : relatedPathOf bp fk ∈ paths
      · rw [if_pos h2]; exact bindRelated_snd_mono mi bp rest _ _ _ h2
      · rw [if_neg h2]
        exact bindRelated_snd_mono mi bp rest _ _ _
          (List.mem_append_right _ (List.mem_singleton.mpr rfl))
    · by_cases h1 : fk0.relatedModel ≠ []
      · rw [if_pos h1]
        by_cases h2 : relatedPathOf bp fk0 ∈ paths
        · rw [if_pos h2]; exact ih _ _ _ hmem hne
        · rw [if_neg h2]; exact ih _ _ _ hmem hne
      · rw [if_neg h1]; exact ih _ _ _ hmem hne

theorem bindRelated_skip_all (mi : ModelInfo) (bp : Str)
    (fks : List ForeignKeyInfo) :
    ∀ routes paths,
      (∀ fk ∈ fks, fk.relatedModel ≠ [] → relatedPathOf bp fk ∈ paths) →
      bindRelated mi bp routes paths fks = (routes, paths) := by
  induction fks with
  | nil => intro routes paths _; rfl
  | cons fk rest ih =>
    intro routes paths h
    rw [bindRelated]
    by_cases h1 : fk.relatedModel ≠ []
    · rw [if_pos h1, if_pos (h fk (List.mem_cons_self fk rest) h1)]
      exact ih _ _ (fun fk' hmem hne => h fk' (List.mem_cons_of_mem fk hmem) hne)
    · rw [if_neg h1]
      exact ih _ _ (fun fk' hmem hne => h fk' (List.mem_cons_of_mem fk hmem) hne)

theorem bindRelated_fst_split (mi : ModelInfo) (bp : Str)
    (fks : List ForeignKeyInfo) :
    ∀ routes paths, ∃ rs,
      (bindRelated mi bp routes paths fks).1 = routes ++ rs ∧
      ∀ r ∈ rs, r.handler.isRelated = true := by
  induction fks with
  | nil => intro routes paths; exact ⟨[], by simp [bindRelated]⟩
  | cons fk rest ih =>
    intro routes paths
    rw [bindRelated]
    by_cases h1 : fk.relatedModel ≠ []
    · rw [if_pos h1]
      by_cases h2 : relatedPathOf bp fk ∈ paths
      · rw [if_pos h2]; exact ih _ _
      · rw [if_neg h2]
        obtain ⟨rs, heq, hrel⟩ := ih
          (routes ++ [{ method := "GET".toList, path := relatedPathOf bp fk,
                        handler := .related mi.typeName fk }]) (paths ++ [relatedPathOf bp fk])
        refine ⟨{ method := "GET".toList, path := relatedPathOf bp fk,
                  handler := .related mi.typeName fk } :: rs, ?_, ?_⟩
        · rw [heq, List.append_assoc, List.singleton_append]
        · intro r hr
          rcases List.mem_cons.mp hr with rfl | hr
          · rfl
          · exact hrel r hr
    · rw [if_neg h1]; exact ih _ _

/-- The routes of one `generateModelAPI` run: the old routes, the five CRUD
bindings, then some relationship bindings. -/
theorem generateModelAPI_routes_split (g : APIGenerator) (mi : ModelInfo) :
    ∃ rs, (generateModelAPI g mi).routes = g.routes ++ crudRoutes mi ++ rs ∧
      ∀ r ∈ rs, r.handler.isRelated = true := by
  rw [generateModelAPI]
  exact bindRelated_fst_split mi _ mi.foreignKeys _ _

/-- A second `generateModelAPI` run for the same model re-binds exactly the
CRUD routes: every relationship path is already registered, so the
relationship loop skips every foreign key. -/
theorem generateModelAPI_twice_routes (g : APIGenerator) (mi : ModelInfo) :
    (generateModelAPI (generateModelAPI g mi) mi).routes =
      (generateModelAPI g mi).routes ++ crudRoutes mi ∧
    (generateModelAPI (generateModelAPI g mi) mi).registeredPaths =
      (generateModelAPI g mi).registeredPaths := by
  have hpaths : ∀ fk ∈ mi.foreignKeys, fk.relatedModel ≠ [] →
      relatedPathOf ("/api/".toList ++ mi.pluralName) fk ∈
        (generateModelAPI g mi).registeredPaths := by
    intro fk hmem hne
    rw [generateModelAPI]
    exact bindRelated_snd_complete mi _ mi.foreignKeys _ _ fk hmem hne
  constructor
  · conv_lhs => rw [generateModelAPI]
    rw [bindRelated_skip_all mi _ mi.foreignKeys _ _ hpaths]
  · conv_lhs => rw [generateModelAPI]
    rw [bindRelated_skip_all mi _ mi.foreignKeys _ _ hpaths]

/-! ### Facts about the model analyzer -/

/-- The `IsID` flag of an analyzed field is exactly the
`name == "ID" || HasSuffix(name, "ID")` test of the field loop. -/
theorem isID_of_mem_processFields (fields : List (Str × Str × GoType))
    (f : FieldInfo) (hf : f ∈ (processFields fields).1) :
    f.isID = (f.name = "ID".toList || hasSuffix f.name ("ID".toList)) := by
  induction fields with
  | nil => exact absurd hf (List.not_mem_nil f)
  | cons fld rest ih =>
    obtain ⟨name, jsonTag, ty⟩ := fld
    rw [processFields] at hf
    by_cases hskip : jsonTag = [] ∨ jsonTag = "-".toList
    · rw [if_pos (by simpa using hskip)] at hf
      exact ih hf
    · rw [if_neg (by simpa using hskip)] at hf
      rcases List.mem_cons.mp hf with rfl | hf
      · simp
      · exact ih hf

/-- Every analyzed foreign key comes from Rule A — `RelatedField = "ID"`,
no relationship column — or from Rule B — `RelatedField` left at the Go
zero value `""`, the relationship column being the `...ID` field itself. -/
theorem fk_shape_of_mem_processFields (fields : List (Str × Str × GoType))
    (fk : ForeignKeyInfo) (hfk : fk ∈ (processFields fields).2) :
    (fk.relatedField = "ID".toList ∧ fk.relationshipID = []) ∨
    (fk.relatedField = [] ∧ fk.relationshipID = fk.fieldName ∧
      hasSuffix fk.fieldName ("ID".toList) = true) := by
  induction fields with
  | nil => exact absurd hfk (List.not_mem_nil fk)
  | cons fld rest ih =>
    obtain ⟨name, jsonTag, ty⟩ := fld
    rw [processFields] at hfk
    by_cases hskip : jsonTag = [] ∨ jsonTag = "-".toList
    · rw [if_pos (by simpa using hskip)] at hfk
      exact ih hfk
    · rw [if_neg (by simpa using hskip)] at hfk
      simp only at hfk
      rcases List.mem_append.mp hfk with hmem | hfk2
      · rcases List.mem_append.mp hmem with hA | hB
        · by_cases hcond : ty.kindIsStruct && !isBasicType ty
          · rw [if_pos hcond] at hA
            rcases List.mem_singleton.mp hA with rfl
            exact Or.inl ⟨rfl, rfl⟩
          · rw [if_neg hcond] at hA
            exact absurd hA (List.not_mem_nil fk)
        · by_cases hcond : hasSuffix name ("ID".toList) && ty.kindIsUint
          · rw [if_pos hcond] at hB
            rcases List.mem_singleton.mp hB with rfl
            simp only [Bool.and_eq_true] at hcond
            exact Or.inr ⟨rfl, rfl, hcond.1⟩
          · rw [if_neg hcond] at hB
            exact absurd hB (List.not_mem_nil fk)
      · exact ih hfk2

/-! ### Facts about the generated schema bodies -/

theorem requestBody_keys (models : List (Str × ModelInfo)) (mi : ModelInfo)
    (isCreate : Bool) :
    (generateRequestBody models mi isCreate).keys =
      (mi.fields.filter
        (fun f => !(f.jsonName = "-".toList || (isCreate && f.isID)))).map
        FieldInfo.jsonName := by
  rw [generateRequestBody, SwaggerBody.keys]
  rw [List.map_map]
  rfl

theorem responseBody_keys (models : List (Str × ModelInfo)) (mi : ModelInfo) :
    (generateResponseBody models mi).keys =
      (mi.fields.filter (fun f => !(f.jsonName = "-".toList))).map
        FieldInfo.jsonName := by
  rw [generateResponseBody, SwaggerBody.keys]
  rw [List.map_map]
  rfl

/-- A field with the `IsID` flag contributes no property to the create
request body, and — when the model's json names are distinct — its json
name is absent from the create request body altogether. -/
theorem jsonName_not_in_create_keys (models : List (Str × ModelInfo))
    (mi : ModelInfo) (f : FieldInfo) (hf : f ∈ mi.fields) (hid : f.isID = true)
    (hnodup : (mi.fields.map FieldInfo.jsonName).Nodup) :
    f.jsonName ∉ (generateRequestBody models mi true).keys := by
  rw [requestBody_keys]
  intro hmem
  obtain ⟨g, hg, hgf⟩ := List.mem_map.mp hmem
  obtain ⟨hgmem, hgpred⟩ := List.mem_filter.mp hg
  have hgf2 : g = f := List.inj_on_of_nodup_map hnodup hgmem hf hgf
  subst hgf2
  simp [hid] at hgpred

/-- A field whose json name is not `"-"` contributes its json name to the
response body's properties. -/
theorem jsonName_in_response_keys (models : List (Str × ModelInfo))
    (mi : ModelInfo) (f : FieldInfo) (hf : f ∈ mi.fields)
    (hdash : f.jsonName ≠ "-".toList) :
    f.jsonName ∈ (generateResponseBody models mi).keys := by
  rw [responseBody_keys]
  exact List.mem_map.mpr
    ⟨f, List.mem_filter.mpr ⟨hf, by simpa using hdash⟩, rfl⟩

/-! ### The claims -/

/--
C7: `pluralize` is a total deterministic function equal to the ordered rule
table — a word ending in "y" drops the "y" and appends "ies"; otherwise a
word ending in "s"/"x"/"z"/"ch"/"sh" appends "es"; otherwise "s" is
appended — with the "y" rule taking precedence and the default case always
applying. (`pluralize` is the source function; `pluralizeSpecTable` is the
spec's rule table; both are total Lean functions, so determinism and
totality hold by construction.)
-/
theorem pluralize_matches_rule_table (s : Str) :
    pluralize s = pluralizeSpecTable s := by
  rw [pluralize, pluralizeSpecTable]
  by_cases h : hasSuffix s ("y".toList) = true
  · rw [if_pos h, if_pos h, trimSuffix, if_pos h, List.dropLast_eq_take]
    rfl
  · rw [if_neg h, if_neg h]

/--
C4 counterexample: `toCamelCase (toSnakeCase "User")` is `"user"`, not
`"User"` — the round trip does not restore the original casing of the
digit-free name `"User"`, because `toCamelCase` never upper-cases the
first character.
-/
theorem camel_snake_roundtrip_cex :
    toCamelCase (toSnakeCase ("User".toList)) ≠ "User".toList := by decide

/--
C4 (amended): `toSnakeCase` is idempotent on its own output, and for every
name without underscores, `toCamelCase (toSnakeCase x)` restores `x` with
its first character lower-cased — the original casing of a leading
uppercase character is lost.
-/
theorem snake_idempotent_camel_lowerFirst (s : Str) :
    toSnakeCase (toSnakeCase s) = toSnakeCase s ∧
    ('_' ∉ s → toCamelCase (toSnakeCase s) = lowerFirst s) := by
  constructor
  · exact snakeAux_id_of_no_upper (toSnakeCase s)
      (fun c hc => snakeAux_no_upper s true c hc) true
  · exact toCamelCase_toSnakeCase s

theorem snake_idempotent_camel_lowerFirst_witness :
    ('_' ∉ "UserName".toList) ∧
    toCamelCase (toSnakeCase ("UserName".toList)) = lowerFirst ("UserName".toList) :=
  ⟨by decide, (snake_idempotent_camel_lowerFirst ("UserName".toList)).2 (by decide)⟩

/--
C3: route synthesis is idempotent for the relationship-path set — running
`generateModelAPI` a second time for the same model leaves
`RegisteredPaths` unchanged and re-binds only the five CRUD routes: every
relationship path is already present and is skipped silently, so the first
registration wins.
-/
theorem relationship_route_generation_idempotent (g : APIGenerator)
    (mi : ModelInfo) :
    (generateModelAPI (generateModelAPI g mi) mi).registeredPaths =
      (generateModelAPI g mi).registeredPaths ∧
    (generateModelAPI (generateModelAPI g mi) mi).routes =
      (generateModelAPI g mi).routes ++ crudRoutes mi :=
  ⟨(generateModelAPI_twice_routes g mi).2, (generateModelAPI_twice_routes g mi).1⟩

/--
C10: the `RegisteredPaths` guard covers only relationship paths; the five
CRUD routes are bound unconditionally on every invocation of
`generateModelAPI`, so running it twice for the same model leaves the route
list as the old routes, the CRUD block, the relationship bindings (each of
which has the relationship handler), and the CRUD block a second time —
duplicate CRUD bindings, no duplicated relationship binding.
-/
theorem crud_routes_rebound_unconditionally (g : APIGenerator) (mi : ModelInfo) :
    ∃ rs, (∀ r ∈ rs, r.handler.isRelated = true) ∧
      (generateModelAPI (generateModelAPI g mi) mi).routes =
        g.routes ++ crudRoutes mi ++ rs ++ crudRoutes mi := by
  obtain ⟨rs, hsplit, hrel⟩ := generateModelAPI_routes_split g mi
  refine ⟨rs, hrel, ?_⟩
  rw [(generateModelAPI_twice_routes g mi).1, hsplit]

/--
C6: for a model whose struct type has an `ID` field (a model without one
makes the Go handler panic at `idField.Type.Kind()` before any database
call), an `UPDATE` whose identifier resolves to no record responds 404 and
never reaches `ShouldBindJSON` or `DB.Save` — the existence check is the
only collaborator call the handler makes in that case.
-/
theorem update_notFound_no_save (mi : ModelInfo) (id : Str)
    (bindRes : BindOutcome) (saveRes : SaveOutcome) (hid : id ≠ [])
    (idTy : GoType) (hID : fieldTypeByName mi.ty ("ID".toList) = some idTy) :
    ∃ res, updateHandler mi id .recordNotFound bindRes saveRes = some res ∧
      res.status = 404 ∧
      HandlerCall.bindJSON ∉ res.calls ∧
      HandlerCall.dbSave ∉ res.calls := by
  rw [updateHandler, if_neg hid, hID]
  by_cases h : idTy.kindIsString = true
  · exact ⟨_, rfl, rfl, by simp [h], by simp [h]⟩
  · exact ⟨_, rfl, rfl, by simp [h], by simp [h]⟩

theorem update_notFound_no_save_witness :
    ("1".toList : Str) ≠ [] ∧
    fieldTypeByName miUser.ty ("ID".toList) = some GoType.uint ∧
    (∃ res, updateHandler miUser ("1".toList) .recordNotFound .bound .saved =
        some res ∧
      res.status = 404 ∧
      HandlerCall.bindJSON ∉ res.calls ∧
      HandlerCall.dbSave ∉ res.calls) :=
  ⟨by decide, rfl,
   update_notFound_no_save miUser ("1".toList) .bound .saved (by decide)
     GoType.uint rfl⟩

/--
C1 counterexample: registering `User` (resource name defaulted to the
snake-case `"user"`) stores the `ModelInfo` only under the raw declared
name `"User"`; the lookup under the resource name `"user"` fails, so the
two keys do not both resolve to the same `ModelInfo`.
-/
theorem registry_resource_name_cex :
    ¬ (∃ mi : ModelInfo,
        mapLookup (registerModel newGenerator userGoType []).models
          ("user".toList) = some mi ∧
        mapLookup (registerModel newGenerator userGoType []).models
          ("User".toList) = some mi) := by
  rintro ⟨mi, h1, -⟩
  rw [show mapLookup (registerModel newGenerator userGoType []).models
      ("user".toList) = none from rfl] at h1
  exact Option.noConfusion h1

/--
C1 (amended): `RegisterModel` stores the resulting `ModelInfo` in the
registry only under the type's raw declared name; every other key —
including the snake-case resource name when it differs from the raw name —
is left exactly as before the registration.
-/
theorem register_stores_only_raw_name (g : APIGenerator) (model : GoType)
    (rn : Str) (mi : ModelInfo)
    (h : registerModelInfo model rn = some mi) :
    mapLookup (registerModel g model rn).models mi.typeName = some mi ∧
    ∀ k, k ≠ mi.typeName →
      mapLookup (registerModel g model rn).models k = mapLookup g.models k := by
  rw [registerModel, h]
  exact ⟨mapLookup_mapInsert_self _ _ _,
         fun k hk => mapLookup_mapInsert_other _ _ _ _ hk⟩

theorem register_stores_only_raw_name_witness :
    registerModelInfo userGoType [] = some miUser ∧
    ("user".toList : Str) ≠ miUser.typeName ∧
    mapLookup (registerModel newGenerator userGoType []).models miUser.typeName =
      some miUser ∧
    mapLookup (registerModel newGenerator userGoType []).models ("user".toList) =
      mapLookup newGenerator.models ("user".toList) :=
  ⟨rfl, by decide,
   (register_stores_only_raw_name newGenerator userGoType [] miUser rfl).1,
   (register_stores_only_raw_name newGenerator userGoType [] miUser rfl).2
     ("user".toList) (by decide)⟩

/--
C2 counterexample: after registering `User` and `Post`, no route at
`GET /api/posts/:id/user` is a relationship binding without an explicit
relationship column resolving via a conventional `userID` filter — the
route that exists there is bound to the Rule-B foreign key whose explicit
column is `UserID`, and a column-less binding would fall back to
`postID`, not `userID`.
-/
theorem posts_user_route_cex :
    ¬ (∃ r ∈ genUserPost.routes, r.path = postsUserPath ∧
        resolvesViaConventionalUserID miPost r.handler = true) := by decide

/--
C2 (amended): registering `User` and `Post` yields exactly one binding at
`GET /api/posts/{id}/user`, bound — first registration wins — to the
scalar ID-suffix rule's (Rule B) foreign key with explicit relationship
column `UserID`; a Rule-A binding with no explicit column would fall back
to the conventional `{parent resource}ID` column, which is `postID` here;
and no `GET /api/users/{id}/post` route is produced, since the sequence
field `Posts []Post` does not trigger Rule A.
-/
theorem posts_user_route_binding :
    genUserPost.routes.filter (fun r => r.path = postsUserPath) =
      [{ method := "GET".toList, path := postsUserPath,
         handler := .related ("Post".toList) fkPostUserID }] ∧
    fkPostUserID.relationshipID = "UserID".toList ∧
    relatedFilterColumn miPost fkPostUserID = "UserID".toList ∧
    relatedFilterColumn miPost fkPostUser = "postID".toList ∧
    genUserPost.routes.filter (fun r => r.path = usersPostPath) = [] := by
  refine ⟨by decide, rfl, rfl, by decide, by decide⟩

/--
C5: for a model analyzed from a struct with a field `ID` of kind `uint`
(whose json name is usable and unique in the model), the create request
body omits the `ID` property entirely while the response body includes it.
-/
theorem create_request_omits_id_response_includes
    (models : List (Str × ModelInfo)) (name : Str)
    (structFields : List (Str × Str × GoType)) (rn : Str) (mi : ModelInfo)
    (hmi : registerModelInfo (.strukt name structFields) rn = some mi)
    (f : FieldInfo) (hf : f ∈ mi.fields)
    (hname : f.name = "ID".toList)
    (_hty : f.ty.kindIsUint = true)
    (hdash : f.jsonName ≠ "-".toList)
    (hnodup : (mi.fields.map FieldInfo.jsonName).Nodup) :
    f.jsonName ∉ (generateRequestBody models mi true).keys ∧
    f.jsonName ∈ (generateResponseBody models mi).keys := by
  have hfields : mi.fields = (processFields structFields).1 := by
    simp only [registerModelInfo, derefPtr] at hmi
    rw [← Option.some.inj hmi]
  have hid : f.isID = true := by
    rw [isID_of_mem_processFields structFields f (hfields ▸ hf)]
    simp [hname]
  exact ⟨jsonName_not_in_create_keys models mi f hf hid hnodup,
         jsonName_in_response_keys models mi f hf hdash⟩

theorem create_request_omits_id_witness :
    registerModelInfo (.strukt ("User".toList) userStructFields) [] = some miUser ∧
    userIDFieldInfo ∈ miUser.fields ∧
    userIDFieldInfo.name = "ID".toList ∧
    userIDFieldInfo.ty.kindIsUint = true ∧
    (miUser.fields.map FieldInfo.jsonName).Nodup ∧
    userIDFieldInfo.jsonName ∉
      (generateRequestBody genUserPost.models miUser true).keys ∧
    userIDFieldInfo.jsonName ∈
      (generateResponseBody genUserPost.models miUser).keys := by
  have hf : userIDFieldInfo ∈ miUser.fields :=
    List.get?_mem (show miUser.fields.get? 0 = some userIDFieldInfo from rfl)
  have h := create_request_omits_id_response_includes genUserPost.models
    ("User".toList) userStructFields [] miUser rfl userIDFieldInfo hf rfl rfl
    (by decide) (by decide)
  exact ⟨rfl, hf, rfl, rfl, by decide, h.1, h.2⟩

/--
C8 counterexample: the foreign keys of the analyzed `Post` model do not
all carry `related_field = "ID"` — the Rule-B entries (from the scalar
`ID`-suffix fields) leave `related_field` at the Go zero value `""`.
-/
theorem fk_relatedField_cex :
    ¬ (∀ fk ∈ miPost.foreignKeys, fk.relatedField = "ID".toList) := by decide

/--
C8 (amended): every `ForeignKeyInfo` produced by model analysis either
comes from the nested-record rule (Rule A), with `related_field = "ID"`
and no relationship column, or from the scalar ID-suffix rule (Rule B),
with `related_field` left empty (the Go zero value) and the relationship
column set to the `...ID` field itself — `related_field` defaults to "ID"
only for Rule A.
-/
theorem fk_relatedField_dichotomy (name : Str)
    (structFields : List (Str × Str × GoType)) (rn : Str) (mi : ModelInfo)
    (hmi : registerModelInfo (.strukt name structFields) rn = some mi)
    (fk : ForeignKeyInfo) (hfk : fk ∈ mi.foreignKeys) :
    (fk.relatedField = "ID".toList ∧ fk.relationshipID = []) ∨
    (fk.relatedField = [] ∧ fk.relationshipID = fk.fieldName ∧
      hasSuffix fk.fieldName ("ID".toList) = true) := by
  have hfks : mi.foreignKeys = (processFields structFields).2 := by
    simp only [registerModelInfo, derefPtr] at hmi
    rw [← Option.some.inj hmi]
  exact fk_shape_of_mem_processFields structFields fk (hfks ▸ hfk)

theorem fk_relatedField_dichotomy_witness :
    registerModelInfo (.strukt ("Post".toList) postStructFields) [] = some miPost ∧
    fkPostUser ∈ miPost.foreignKeys ∧
    ((fkPostUser.relatedField = "ID".toList ∧ fkPostUser.relationshipID = []) ∨
     (fkPostUser.relatedField = [] ∧
      fkPostUser.relationshipID = fkPostUser.fieldName ∧
      hasSuffix fkPostUser.fieldName ("ID".toList) = true)) :=
  ⟨rfl, by decide,
   fk_relatedField_dichotomy ("Post".toList) postStructFields [] miPost rfl
     fkPostUser (by decide)⟩

/--
C9: the Swagger create request body excludes every field whose `IsID` flag
is set — the flag holds exactly for fields named `"ID"` or ending in
`"ID"`, so foreign-key scalars such as `UserID` are excluded too — whereas
the generated Go create-request struct excludes only the field named
exactly `"ID"` and keeps the other `*ID` fields.
-/
theorem create_exclusion_policies_differ
    (models : List (Str × ModelInfo)) (name : Str)
    (structFields : List (Str × Str × GoType)) (rn : Str) (mi : ModelInfo)
    (hmi : registerModelInfo (.strukt name structFields) rn = some mi)
    (f : FieldInfo) (hf : f ∈ mi.fields) (hid : f.isID = true)
    (hnodup : (mi.fields.map FieldInfo.jsonName).Nodup) :
    (f.name = "ID".toList ∨ hasSuffix f.name ("ID".toList) = true) ∧
    f.jsonName ∉ (generateRequestBody models mi true).keys ∧
    (f.name ≠ "ID".toList → f ∈ requestStructFields mi true) ∧
    (f.name = "ID".toList → f ∉ requestStructFields mi true) := by
  have hfields : mi.fields = (processFields structFields).1 := by
    simp only [registerModelInfo, derefPtr] at hmi
    rw [← Option.some.inj hmi]
  have hiff := isID_of_mem_processFields structFields f (hfields ▸ hf)
  rw [hid] at hiff
  refine ⟨?_, jsonName_not_in_create_keys models mi f hf hid hnodup, ?_, ?_⟩
  · have := hiff.symm
    simp only [Bool.or_eq_true, decide_eq_true_eq] at this
    exact this
  · intro hne
    refine List.mem_filter.mpr ⟨hf, ?_⟩
    simp only [hid]
    simp
    simpa using hne
  · intro heq hmem
    have := (List.mem_filter.mp hmem).2
    simp [hid, heq] at this

theorem create_exclusion_policies_differ_witness :
    registerModelInfo (.strukt ("Post".toList) postStructFields) [] = some miPost ∧
    postUserIDFieldInfo ∈ miPost.fields ∧
    postUserIDFieldInfo.isID = true ∧
    (miPost.fields.map FieldInfo.jsonName).Nodup ∧
    postUserIDFieldInfo.jsonName ∉
      (generateRequestBody genUserPost.models miPost true).keys ∧
    postUserIDFieldInfo ∈ requestStructFields miPost true := by
  have hf : postUserIDFieldInfo ∈ miPost.fields :=
    List.get?_mem (show miPost.fields.get? 1 = some postUserIDFieldInfo from rfl)
  have h := create_exclusion_policies_differ genUserPost.models ("Post".toList)
    postStructFields [] miPost rfl postUserIDFieldInfo hf rfl (by decide)
  exact ⟨rfl, hf, rfl, by decide, h.2.1, h.2.2.1 (by decide)⟩

end Apigen
